import Mathlib

/-!
Verification of the TalkNest connection-routing and message-fan-out
subsystem (socket server, message/channel models, messages controller)
against its natural-language specification.

The socket server keeps a `userSocketMap : Map userId socketId`,
binds a claimed `userId` from the handshake query on connection,
removes the matching entry on disconnect by a linear scan, and routes
direct messages (`sendMessage`) and channel messages
(`sendMessageOnChannel`) after persisting them in MongoDB.
All definitions below are shallow embeddings of that JavaScript code.
-/

namespace TalkNest

/-- A user identity: the opaque user-id string supplied at handshake. -/
abbrev Identity := String

/-- A live connection handle: the socket id string. -/
abbrev SocketId := String

/-- The in-memory `userSocketMap`: a JavaScript `Map` from user id to
socket id, modelled as an association list in insertion order
(JS `Map` preserves insertion order; `set` on an existing key updates
in place). -/
abbrev DirState := List (Identity × SocketId)

/-- `userSocketMap.get(k)`: first entry whose key equals `k`
(JS `Map` keys are unique; on arbitrary lists this is the first match). -/
def mapGet : DirState → Identity → Option SocketId
  | [], _ => none
  | (k1, v1) :: rest, k => if k1 = k then some v1 else mapGet rest k

/-- `userSocketMap.set(k, v)`: replace the value at key `k` in place if
present, otherwise append the new entry (JS `Map.set` semantics). -/
def mapSet : DirState → Identity → SocketId → DirState
  | [], k, v => [(k, v)]
  | (k1, v1) :: rest, k, v =>
      if k1 = k then (k, v) :: rest else (k1, v1) :: mapSet rest k v

/-- The `disconnect(socket)` cleanup in the socket server: iterate over
`userSocketMap`, delete the first entry whose socket id equals the
disconnected socket's id, and `break`. -/
def disconnectUpdate : DirState → SocketId → DirState
  | [], _ => []
  | (u, s) :: rest, sid =>
      if s = sid then rest else (u, s) :: disconnectUpdate rest sid

/-- A message draft as submitted over the socket (`message` argument of
the `sendMessage` / `sendMessageOnChannel` handlers).  Fields are
optional because the client supplies an arbitrary JS object. -/
structure MsgDraft where
  sender : Option Identity
  receiver : Option Identity
  messageType : Option String
  content : Option String
  fileUrl : Option String
  channel : Option String
  deriving Repr, DecidableEq

/-- A persisted message record, per `messageSchema`
(fields: sender, receiver, messageType, content, fileUrl; the schema
has no `channel` field — it is only a TODO comment — so a Mongoose
document stores none). `id` is the assigned `_id`. -/
structure StoredMsg where
  id : Nat
  sender : Identity
  receiver : Option Identity
  messageType : String
  content : Option String
  fileUrl : Option String
  deriving Repr, DecidableEq

/-- A channel document, per `channelSchema`: name, member ids, admin
ids, and the ordered list of message ids. -/
structure ChannelDoc where
  id : String
  name : String
  members : List Identity
  admin : List Identity
  messages : List Nat
  deriving Repr, DecidableEq

/-- The MongoDB state visible to this subsystem: the `Messages`
collection, the next `_id` to assign, and the `Channels` collection. -/
structure Db where
  messages : List StoredMsg
  nextId : Nat
  channels : List ChannelDoc
  deriving Repr, DecidableEq

/-- `messageSchema` validation run by `Message.create`:
`sender` required; `messageType` required with enum `text|file`;
`content` required exactly when `messageType === "text"`;
`fileUrl` required exactly when `messageType === "file"`. -/
def validateMessage (m : MsgDraft) : Bool :=
  m.sender.isSome &&
  (m.messageType == some "text" || m.messageType == some "file") &&
  (if m.messageType == some "text" then m.content.isSome else true) &&
  (if m.messageType == some "file" then m.fileUrl.isSome else true)

/-- The document `Message.create(message)` stores when validation
passes: the schema fields copied from the draft (unknown fields such as
`channel` are dropped by Mongoose strict mode), with the next id. -/
def storedOf (db : Db) (m : MsgDraft) : StoredMsg :=
  { id := db.nextId
    sender := m.sender.getD ""
    receiver := m.receiver
    messageType := m.messageType.getD ""
    content := m.content
    fileUrl := m.fileUrl }

/-- `Message.create(message)`: validate against `messageSchema`; on
success append the stored document and bump the id counter, on failure
(validation error) throw — modelled as `none`. -/
def createMessage (db : Db) (m : MsgDraft) : Option (StoredMsg × Db) :=
  if validateMessage m then
    some (storedOf db m,
      { db with messages := db.messages ++ [storedOf db m],
                nextId := db.nextId + 1 })
  else none

/-- `Channel.findById(cid)`: the channel document with matching id. -/
def findChannel (chs : List ChannelDoc) (cid : String) : Option ChannelDoc :=
  chs.find? (fun c => c.id == cid)

/-- `Channel.findByIdAndUpdate(cid, \x7b $push : \x7bmessages : mid\x7d \x7d)`:
append `mid` to the message list of the channel with id `cid`; a
no-op when no channel matches. -/
def channelAppend (chs : List ChannelDoc) (cid : String) (mid : Nat) :
    List ChannelDoc :=
  chs.map (fun c =>
    if c.id == cid then { c with messages := c.messages ++ [mid] } else c)

/-- An outbound push: `io.to(target).emit(event, payload)` where the
payload is the populated message (identified here by its id) plus, for
channel pushes, the `channelId` field added to `finalData`. -/
structure Emit where
  target : SocketId
  event : String
  msgId : Nat
  channelId : Option String
  deriving Repr, DecidableEq

/-- One observable step of a delivery handler, in program order:
directory lookups, the `Message.create` persistence call (with its
outcome), the populated re-read, the channel history update and fetch,
and each push. -/
inductive Step where
  | lookup (ident : Option Identity) (res : Option SocketId)
  | persist (ok : Bool)
  | reread (id : Nat)
  | chanUpdate (cid : Option String)
  | chanFetch (cid : Option String) (found : Bool)
  | push (e : Emit)
  deriving Repr, DecidableEq

/-- Whether a step is a directory lookup. -/
def Step.isLookup : Step → Bool
  | .lookup _ _ => true
  | _ => false

/-- Whether a step is the persistence call. -/
def Step.isPersist : Step → Bool
  | .persist _ => true
  | _ => false

/-- Whether a step is an outbound push. -/
def Step.isPush : Step → Bool
  | .push _ => true
  | _ => false

/-- `userSocketMap.get(message.sender)` where the field may be absent:
`Map.get(undefined)` is `undefined`. -/
def jsGet (dir : DirState) (k : Option Identity) : Option SocketId :=
  k.bind (mapGet dir)

/-- The `sendMessage` socket handler, as a trace of steps.  Program
order from the source: look up `senderSocketId` and `receiverSocketId`
in `userSocketMap`; `Message.create(message)` (a validation failure
throws into the `catch`, which only logs — nothing further happens);
re-read by id with sender/receiver populated; emit `"recieveMessage"`
to the receiver socket if present, then to the sender socket if
present. -/
def sendMessageT (dir : DirState) (db : Db) (m : MsgDraft) :
    Db × List Step :=
  let senderSocketId := jsGet dir m.sender
  let receiverSocketId := jsGet dir m.receiver
  match createMessage db m with
  | none =>
      (db, [Step.lookup m.sender senderSocketId,
            Step.lookup m.receiver receiverSocketId,
            Step.persist false])
  | some (created, db1) =>
      let recvPush : List Step :=
        match receiverSocketId with
        | some sid => [Step.push ⟨sid, "recieveMessage", created.id, none⟩]
        | none => []
      let sendPush : List Step :=
        match senderSocketId with
        | some sid => [Step.push ⟨sid, "recieveMessage", created.id, none⟩]
        | none => []
      (db1, [Step.lookup m.sender senderSocketId,
             Step.lookup m.receiver receiverSocketId,
             Step.persist true,
             Step.reread created.id] ++ recvPush ++ sendPush)

/-- A `forEach` fan-out over a recipient identity list, as done for
`channel.members` and `channel.admin`: look each identity up in
`userSocketMap` and emit to it exactly when the lookup hits. -/
def fanout (dir : DirState) (l : List Identity) (ev : String) (mid : Nat)
    (cid : Option String) : List Emit :=
  l.filterMap (fun v => (mapGet dir v).map (fun sid => ⟨sid, ev, mid, cid⟩))

/-- The `sendMessageOnChannel` socket handler, as a trace of steps.
Program order from the source: `Message.create(message)`; re-read with
sender populated; `Channel.findByIdAndUpdate` pushing the new id onto
the channel's `messages`; `Channel.findById` with members and admin
populated; build `finalData = \x7b...messageData._doc, channelId:
channel._id\x7d` — when the channel does not exist this dereferences
`null` and throws into the `catch` (only logging), so no push happens;
otherwise push `"recieveChannelMessage"` to every online member, then
to every online admin. -/
def sendMessageOnChannelT (dir : DirState) (db : Db) (m : MsgDraft) :
    Db × List Step :=
  match createMessage db m with
  | none => (db, [Step.persist false])
  | some (created, db1) =>
      let db2 :=
        match m.channel with
        | some cid =>
            { db1 with channels := channelAppend db1.channels cid created.id }
        | none => db1
      let chanOpt := m.channel.bind (findChannel db2.channels)
      match chanOpt with
      | none =>
          (db2, [Step.persist true, Step.reread created.id,
                 Step.chanUpdate m.channel, Step.chanFetch m.channel false])
      | some ch =>
          let memberPushes :=
            fanout dir ch.members "recieveChannelMessage" created.id (some ch.id)
          let adminPushes :=
            fanout dir ch.admin "recieveChannelMessage" created.id (some ch.id)
          (db2, [Step.persist true, Step.reread created.id,
                 Step.chanUpdate m.channel, Step.chanFetch m.channel true]
                ++ memberPushes.map Step.push ++ adminPushes.map Step.push)

/-- The pushes of a trace, in order. -/
def pushesOf (tr : List Step) : List Emit :=
  tr.filterMap (fun s => match s with | Step.push e => some e | _ => none)

/-- Observable outcome of the `sendMessage` handler: new database state
and emitted pushes. -/
def sendMessage (dir : DirState) (db : Db) (m : MsgDraft) :
    Db × List Emit :=
  ((sendMessageT dir db m).1, pushesOf (sendMessageT dir db m).2)

/-- Observable outcome of the `sendMessageOnChannel` handler. -/
def sendMessageOnChannel (dir : DirState) (db : Db) (m : MsgDraft) :
    Db × List Emit :=
  ((sendMessageOnChannelT dir db m).1, pushesOf (sendMessageOnChannelT dir db m).2)

/-- Number of pushes in `es` to socket `s` carrying message `mid`. -/
def pushCount (es : List Emit) (s : SocketId) (mid : Nat) : Nat :=
  (es.filter (fun e => e.target == s && e.msgId == mid)).length

/-- The `io.on("connection")` handler: read
`socket.handshake.query.userId`; if present, `userSocketMap.set(userId,
socket.id)`; in either case register the `sendMessage`,
`sendMessageOnChannel` and `disconnect` listeners.  Returns the new
directory and the registered event names. -/
def connectionHandler (dir : DirState) (uid : Option Identity)
    (sid : SocketId) : DirState × List String :=
  match uid with
  | some u =>
      (mapSet dir u sid, ["sendMessage", "sendMessageOnChannel", "disconnect"])
  | none =>
      (dir, ["sendMessage", "sendMessageOnChannel", "disconnect"])

/-- A `sendMessage` submission as dispatched by `socket.on`: the handler
closure receives only the message — the submitting socket's id and its
bound identity are not consulted. -/
def submitDirect (dir : DirState) (db : Db) (_sid : SocketId)
    (_uid : Option Identity) (m : MsgDraft) : Db × List Emit :=
  sendMessage dir db m

/-- A `sendMessageOnChannel` submission as dispatched by `socket.on`. -/
def submitChannel (dir : DirState) (db : Db) (_sid : SocketId)
    (_uid : Option Identity) (m : MsgDraft) : Db × List Emit :=
  sendMessageOnChannel dir db m

/-- `getMessages` in `MessagesController.js`: 404 when either user id
is falsy; otherwise the stored messages between the two users,
in both directions. -/
def getMessages (db : Db) (user1 user2 : String) :
    Option (List StoredMsg) :=
  if user1 = "" || user2 = "" then none
  else some (db.messages.filter (fun m =>
    (m.sender == user1 && m.receiver == some user2) ||
    (m.sender == user2 && m.receiver == some user1)))

/-! ### Concrete example states used by witnesses and counterexamples -/

/-- Example directory: alice, bob and carol online. -/
def exDir : DirState := [("alice", "s1"), ("bob", "s2"), ("carol", "s3")]

/-- Example empty database. -/
def exDb : Db := { messages := [], nextId := 0, channels := [] }

/-- Example channel: alice and bob are members, bob is also an admin. -/
def exChan : ChannelDoc :=
  { id := "c1", name := "general", members := ["alice", "bob"],
    admin := ["bob"], messages := [] }

/-- Example database holding the example channel. -/
def exDbChan : Db := { messages := [], nextId := 0, channels := [exChan] }

/-- Example valid direct-message draft from alice to bob. -/
def exMsg : MsgDraft :=
  { sender := some "alice", receiver := some "bob",
    messageType := some "text", content := some "hi",
    fileUrl := none, channel := none }

/-- Example valid channel-message draft from alice to channel c1. -/
def exChanMsg : MsgDraft :=
  { sender := some "alice", receiver := none,
    messageType := some "text", content := some "yo",
    fileUrl := none, channel := some "c1" }

/-- Example valid direct-message draft from alice to dave, who is not
bound in the example directory. -/
def exMsgOffline : MsgDraft :=
  { sender := some "alice", receiver := some "dave",
    messageType := some "text", content := some "hey",
    fileUrl := none, channel := none }

/-- Example invalid draft: `messageType` missing, so `messageSchema`
validation rejects it and `Message.create` throws. -/
def exBadMsg : MsgDraft :=
  { sender := some "alice", receiver := some "bob",
    messageType := none, content := some "hi",
    fileUrl := none, channel := none }

/-! ### Helper lemmas -/

/-- `Map.get` after `Map.set` on the same key yields the new value. -/
theorem mapGet_mapSet_self (dir : DirState) (k : Identity) (v : SocketId) :
    mapGet (mapSet dir k v) k = some v := by
  induction dir with
  | nil => simp [mapSet, mapGet]
  | cons e rest ih =>
      obtain ⟨k1, v1⟩ := e
      by_cases h : k1 = k
      · simp [mapSet, mapGet, h]
      · simp [mapSet, mapGet, h, ih]

/-- A successful `Map.get` exhibits a matching entry of the map. -/
theorem mapGet_mem {dir : DirState} {k : Identity} {v : SocketId}
    (h : mapGet dir k = some v) : (k, v) ∈ dir := by
  induction dir with
  | nil => simp [mapGet] at h
  | cons e rest ih =>
      obtain ⟨k1, v1⟩ := e
      by_cases hk : k1 = k
      · rw [mapGet, if_pos hk] at h
        obtain rfl := Option.some.inj h
        subst hk
        exact List.mem_cons_self _ _
      · rw [mapGet, if_neg hk] at h
        exact List.mem_cons_of_mem _ (ih h)

/-- If the socket ids stored in the directory are pairwise distinct,
an id determines the identity it is bound to. -/
theorem nodup_snd_inj {dir : DirState} (h : (dir.map Prod.snd).Nodup)
    {u v : Identity} {s : SocketId}
    (hu : (u, s) ∈ dir) (hv : (v, s) ∈ dir) : u = v := by
  induction dir with
  | nil => simp at hu
  | cons e rest ih =>
      obtain ⟨k1, v1⟩ := e
      rw [List.map_cons, List.nodup_cons] at h
      rcases List.mem_cons.mp hu with hu1 | hu2
      · rcases List.mem_cons.mp hv with hv1 | hv2
        · simpa using congrArg Prod.fst (hu1.trans hv1.symm)
        · have hs1 : s = v1 := congrArg Prod.snd hu1
          have hmem : s ∈ rest.map Prod.snd := List.mem_map.mpr ⟨(v, s), hv2, rfl⟩
          exact absurd (hs1 ▸ hmem) h.1
      · rcases List.mem_cons.mp hv with hv1 | hv2
        · have hs1 : s = v1 := congrArg Prod.snd hv1
          have hmem : s ∈ rest.map Prod.snd := List.mem_map.mpr ⟨(u, s), hu2, rfl⟩
          exact absurd (hs1 ▸ hmem) h.1
        · exact ih h.2 hu2 hv2

/-- Pushes of a concatenated trace. -/
theorem pushesOf_append (a b : List Step) :
    pushesOf (a ++ b) = pushesOf a ++ pushesOf b :=
  List.filterMap_append a b _

/-- Pushes of a trace consisting only of pushes. -/
theorem pushesOf_map_push (l : List Emit) : pushesOf (l.map Step.push) = l := by
  induction l with
  | nil => rfl
  | cons e rest ih => simp [pushesOf, List.filterMap_cons] at ih ⊢; exact ih

/-- `pushCount` distributes over append. -/
theorem pushCount_append (a b : List Emit) (s : SocketId) (mid : Nat) :
    pushCount (a ++ b) s mid = pushCount a s mid + pushCount b s mid := by
  simp [pushCount, List.filter_append]

/-- In a fan-out no push targets `s` when the only identity bound to
`s` is not in the recipient list. -/
theorem pushCount_fanout_zero (dir : DirState) (l : List Identity)
    (u : Identity) (s : SocketId) (mid : Nat) (ev : String) (cid : Option String)
    (huniq : ∀ v, mapGet dir v = some s → v = u) (hnot : u ∉ l) :
    pushCount (fanout dir l ev mid cid) s mid = 0 := by
  induction l with
  | nil => rfl
  | cons x xs ih =>
      have hxu : x ≠ u := fun h => hnot (h ▸ List.mem_cons_self x xs)
      have hxs : u ∉ xs := fun h => hnot (List.mem_cons_of_mem _ h)
      cases hmx : mapGet dir x with
      | none =>
          have hstep : fanout dir (x :: xs) ev mid cid = fanout dir xs ev mid cid := by
            simp [fanout, List.filterMap_cons, hmx]
          rw [hstep]
          exact ih hxs
      | some sx =>
          have hsx : sx ≠ s := fun h => hxu (huniq x (h ▸ hmx))
          have hstep : fanout dir (x :: xs) ev mid cid
              = ⟨sx, ev, mid, cid⟩ :: fanout dir xs ev mid cid := by
            simp [fanout, List.filterMap_cons, hmx]
          rw [hstep]
          have hskip : pushCount (Emit.mk sx ev mid cid :: fanout dir xs ev mid cid) s mid
              = pushCount (fanout dir xs ev mid cid) s mid := by
            simp [pushCount, List.filter_cons, hsx]
          rw [hskip]
          exact ih hxs

/-- A fan-out pushes to `s` exactly once per occurrence of the unique
identity bound to `s`, when the recipient list has no duplicates. -/
theorem pushCount_fanout (dir : DirState) (l : List Identity)
    (u : Identity) (s : SocketId) (mid : Nat) (ev : String) (cid : Option String)
    (hnd : l.Nodup) (hs : mapGet dir u = some s)
    (huniq : ∀ v, mapGet dir v = some s → v = u) :
    pushCount (fanout dir l ev mid cid) s mid = if u ∈ l then 1 else 0 := by
  induction l with
  | nil => rfl
  | cons x xs ih =>
      rw [List.nodup_cons] at hnd
      by_cases hxu : x = u
      · subst hxu
        have h0 : pushCount (fanout dir xs ev mid cid) s mid = 0 :=
          pushCount_fanout_zero dir xs x s mid ev cid huniq hnd.1
        have hstep : fanout dir (x :: xs) ev mid cid
            = ⟨s, ev, mid, cid⟩ :: fanout dir xs ev mid cid := by
          simp [fanout, List.filterMap_cons, hs]
        have hcount : pushCount (Emit.mk s ev mid cid :: fanout dir xs ev mid cid) s mid
            = pushCount (fanout dir xs ev mid cid) s mid + 1 := by
          simp [pushCount, List.filter_cons]
        rw [hstep, hcount, h0, if_pos (List.mem_cons_self x xs)]
      · have hun : u ∈ x :: xs ↔ u ∈ xs := by
          rw [List.mem_cons]
          exact or_iff_right (fun h => hxu h.symm)
        cases hmx : mapGet dir x with
        | none =>
            have hstep : fanout dir (x :: xs) ev mid cid
                = fanout dir xs ev mid cid := by
              simp [fanout, List.filterMap_cons, hmx]
            rw [hstep, ih hnd.2]
            exact if_congr hun.symm rfl rfl
        | some sx =>
            have hsx : sx ≠ s := fun h => hxu (huniq x (h ▸ hmx))
            have hstep : fanout dir (x :: xs) ev mid cid
                = ⟨sx, ev, mid, cid⟩ :: fanout dir xs ev mid cid := by
              simp [fanout, List.filterMap_cons, hmx]
            have hskip : pushCount (Emit.mk sx ev mid cid :: fanout dir xs ev mid cid) s mid
                = pushCount (fanout dir xs ev mid cid) s mid := by
              simp [pushCount, List.filter_cons, hsx]
            rw [hstep, hskip, ih hnd.2]
            exact if_congr hun.symm rfl rfl

/-- Updating a present channel is visible through `findChannel`. -/
theorem findChannel_channelAppend {chs : List ChannelDoc} {cid : String}
    {ch : ChannelDoc} (mid : Nat) (h : findChannel chs cid = some ch) :
    findChannel (channelAppend chs cid mid) cid
      = some { ch with messages := ch.messages ++ [mid] } := by
  induction chs with
  | nil => simp [findChannel] at h
  | cons c rest ih =>
      by_cases hc : c.id = cid
      · rw [findChannel, List.find?_cons_of_pos _ (by simp [hc])] at h
        obtain rfl := Option.some.inj h
        simp [channelAppend, findChannel, hc]
      · rw [findChannel, List.find?_cons_of_neg _ (by simp [hc])] at h
        simp only [channelAppend, List.map_cons, if_neg (by simp [hc] : ¬ (c.id == cid) = true)]
        rw [findChannel, List.find?_cons_of_neg _ (by simp [hc])]
        exact ih h

/-- Updating an absent channel is a no-op. -/
theorem channelAppend_of_none {chs : List ChannelDoc} {cid : String}
    (mid : Nat) (h : findChannel chs cid = none) :
    channelAppend chs cid mid = chs := by
  induction chs with
  | nil => rfl
  | cons c rest ih =>
      by_cases hc : c.id = cid
      · rw [findChannel, List.find?_cons_of_pos _ (by simp [hc])] at h
        exact absurd h (by simp)
      · rw [findChannel, List.find?_cons_of_neg _ (by simp [hc])] at h
        have h1 : channelAppend (c :: rest) cid mid
            = c :: channelAppend rest cid mid := by
          simp [channelAppend, hc]
        rw [h1, ih h]

/-- Every emit of a fan-out carries the fan-out's event label. -/
theorem fanout_all_event (dir : DirState) (l : List Identity) (ev : String)
    (mid : Nat) (cid : Option String) :
    (fanout dir l ev mid cid).all (fun e => e.event == ev) = true := by
  induction l with
  | nil => rfl
  | cons x xs ih =>
      cases hmx : mapGet dir x with
      | none =>
          have hstep : fanout dir (x :: xs) ev mid cid = fanout dir xs ev mid cid := by
            simp [fanout, List.filterMap_cons, hmx]
          rw [hstep]; exact ih
      | some sx =>
          have hstep : fanout dir (x :: xs) ev mid cid
              = ⟨sx, ev, mid, cid⟩ :: fanout dir xs ev mid cid := by
            simp [fanout, List.filterMap_cons, hmx]
          rw [hstep]
          simpa using ih

/-! ### Claim theorems -/

/-- Claim C5: calling `bind` (that is, `userSocketMap.set`) twice for
the same identity with two distinct handles leaves the directory such
that `lookup` of that identity resolves to the second handle only; the
first handle is no longer the resolution. -/
theorem bind_last_write_wins (dir : DirState) (A : Identity)
    (h1 h2 : SocketId) (hne : h1 ≠ h2) :
    mapGet (mapSet (mapSet dir A h1) A h2) A = some h2 ∧
    mapGet (mapSet (mapSet dir A h1) A h2) A ≠ some h1 := by
  have h := mapGet_mapSet_self (mapSet dir A h1) A h2
  refine ⟨h, ?_⟩
  rw [h]
  simp [Ne.symm hne]

/-- Witness for C5 at a concrete directory: rebinding alice from
socket s1 to socket s9 leaves only s9 resolvable. -/
theorem bind_last_write_wins_witness :
    ("s1" : String) ≠ "s9" ∧
    (mapGet (mapSet (mapSet exDir "alice" "s1") "alice" "s9") "alice" = some "s9" ∧
     mapGet (mapSet (mapSet exDir "alice" "s1") "alice" "s9") "alice" ≠ some "s1") :=
  ⟨by decide, bind_last_write_wins exDir "alice" "s1" "s9" (by decide)⟩

/-- Claim C6: the `disconnect` cleanup applied to a socket id matching
no directory entry leaves `userSocketMap` unchanged. -/
theorem unbind_unmatched_noop (dir : DirState) (sid : SocketId)
    (h : ∀ e ∈ dir, e.2 ≠ sid) : disconnectUpdate dir sid = dir := by
  induction dir with
  | nil => rfl
  | cons e rest ih =>
      obtain ⟨u, s⟩ := e
      have hs : s ≠ sid := h (u, s) (List.mem_cons_self _ _)
      rw [disconnectUpdate, if_neg hs,
        ih (fun x hx => h x (List.mem_cons_of_mem _ hx))]

/-- Witness for C6: disconnecting an unknown socket s9 leaves the
example directory unchanged. -/
theorem unbind_unmatched_noop_witness :
    (∀ e ∈ exDir, e.2 ≠ "s9") ∧ disconnectUpdate exDir "s9" = exDir :=
  ⟨by decide, unbind_unmatched_noop exDir "s9" (by decide)⟩

/-- Claim C10: the submission handlers are registered for every
connection whether or not a `userId` was supplied at handshake, and the
outcome of a submission depends only on the submitted message and the
current directory and database — not on the submitting socket or its
bound identity. -/
theorem submit_ignores_connection_identity (dir : DirState) (db : Db)
    (sid1 sid2 : SocketId) (uid1 uid2 : Option Identity) (m : MsgDraft) :
    (connectionHandler dir uid1 sid1).2 = (connectionHandler dir uid2 sid2).2 ∧
    "sendMessage" ∈ (connectionHandler dir none sid1).2 ∧
    "sendMessageOnChannel" ∈ (connectionHandler dir none sid1).2 ∧
    submitDirect dir db sid1 uid1 m = submitDirect dir db sid2 uid2 m ∧
    submitChannel dir db sid1 uid1 m = submitChannel dir db sid2 uid2 m := by
  refine ⟨?_, by simp [connectionHandler], by simp [connectionHandler], rfl, rfl⟩
  cases uid1 <;> cases uid2 <;> rfl

/-- Amended claim C3: when persistence fails (schema validation
rejects the draft, so `Message.create` throws), both handlers emit
zero push events and leave the database unchanged — but no error event
of any kind is emitted either, so nothing is surfaced to the sender;
the error is only logged in the `catch`. -/
theorem persistence_failure_silent (dir : DirState) (db : Db) (m : MsgDraft)
    (hval : validateMessage m = false) :
    sendMessage dir db m = (db, []) ∧
    sendMessageOnChannel dir db m = (db, []) := by
  have hc : createMessage db m = none := by simp [createMessage, hval]
  constructor
  · simp [sendMessage, sendMessageT, hc, pushesOf]
  · simp [sendMessageOnChannel, sendMessageOnChannelT, hc, pushesOf]

/-- Witness for the amended C3 at a concrete invalid draft. -/
theorem persistence_failure_silent_witness :
    validateMessage exBadMsg = false ∧
    (sendMessage exDir exDb exBadMsg = (exDb, []) ∧
     sendMessageOnChannel exDir exDb exBadMsg = (exDb, [])) :=
  ⟨by decide, persistence_failure_silent exDir exDb exBadMsg (by decide)⟩

/-- Counterexample to C3 as stated: a persistence failure with the
sender online produces no output at all — in particular no error event
reaches the sender's socket s1, though the claim requires an error to
be surfaced to the message sender. -/
theorem persistence_failure_error_not_surfaced_cex :
    createMessage exDb exBadMsg = none ∧
    mapGet exDir "alice" = some "s1" ∧
    sendMessage exDir exDb exBadMsg = (exDb, []) := by
  decide

/-- Amended claim C8: every outbound push uses a fixed event label,
but the labels as spelled in the code (and matched by the client's
listeners) are `"recieveMessage"` for direct delivery and
`"recieveChannelMessage"` for channel delivery — not the spellings
`"receiveMessage"` / `"receiveChannelMessage"`. -/
theorem push_event_labels (dir : DirState) (db : Db) (m : MsgDraft) :
    ((sendMessage dir db m).2.all (fun e => e.event == "recieveMessage")) = true ∧
    ((sendMessageOnChannel dir db m).2.all
      (fun e => e.event == "recieveChannelMessage")) = true := by
  constructor
  · rcases hcm : createMessage db m with _ | ⟨c, db1⟩
    · simp [sendMessage, sendMessageT, hcm, pushesOf]
    · cases hr : jsGet dir m.receiver <;> cases hs2 : jsGet dir m.sender <;>
        simp [sendMessage, sendMessageT, hcm, hr, hs2, pushesOf,
          List.filterMap_cons]
  · rcases hcm : createMessage db m with _ | ⟨c, db1⟩
    · simp [sendMessageOnChannel, sendMessageOnChannelT, hcm, pushesOf]
    · cases hch : m.channel with
      | none =>
          simp [sendMessageOnChannel, sendMessageOnChannelT, hcm, hch, pushesOf,
            List.filterMap_cons]
      | some cid =>
          cases hf : findChannel (channelAppend db1.channels cid c.id) cid with
          | none =>
              simp [sendMessageOnChannel, sendMessageOnChannelT, hcm, hch, hf,
                pushesOf, List.filterMap_cons]
          | some ch =>
              simp only [sendMessageOnChannel, sendMessageOnChannelT, hcm, hch,
                Option.some_bind, hf]
              rw [pushesOf_append, pushesOf_append, pushesOf_map_push,
                pushesOf_map_push]
              simp only [List.all_append]
              rw [show pushesOf [Step.persist true, Step.reread c.id,
                    Step.chanUpdate (some cid), Step.chanFetch (some cid) true]
                  = [] from rfl]
              simp [fanout_all_event]

/-- Counterexample to C8 as stated: concrete direct and channel
deliveries emit nonempty push lists in which no event is labelled
`"receiveMessage"` / `"receiveChannelMessage"` (the code spells the
labels `"recieveMessage"` / `"recieveChannelMessage"`). -/
theorem push_event_labels_cex :
    (sendMessage exDir exDb exMsg).2 ≠ [] ∧
    ((sendMessage exDir exDb exMsg).2.all
      (fun e => e.event == "receiveMessage")) = false ∧
    (sendMessageOnChannel exDir exDbChan exChanMsg).2 ≠ [] ∧
    ((sendMessageOnChannel exDir exDbChan exChanMsg).2.all
      (fun e => e.event == "receiveChannelMessage")) = false := by
  decide

/-- Claim C1: a direct message whose sender and receiver both resolve
to (distinct) live handles in the directory is pushed exactly once to
the sender's handle and exactly once to the receiver's handle. -/
theorem direct_both_online_one_push_each
    (dir : DirState) (db : Db) (m : MsgDraft) (A B : Identity)
    (sa sb : SocketId)
    (hA : m.sender = some A) (hB : m.receiver = some B)
    (hsa : mapGet dir A = some sa) (hsb : mapGet dir B = some sb)
    (hne : sa ≠ sb) (hval : validateMessage m = true) :
    pushCount (sendMessage dir db m).2 sa db.nextId = 1 ∧
    pushCount (sendMessage dir db m).2 sb db.nextId = 1 := by
  have hc : createMessage db m
      = some (storedOf db m,
          { db with messages := db.messages ++ [storedOf db m],
                    nextId := db.nextId + 1 }) := by
    simp [createMessage, hval]
  have hja : jsGet dir m.sender = some sa := by simp [jsGet, hA, hsa]
  have hjb : jsGet dir m.receiver = some sb := by simp [jsGet, hB, hsb]
  constructor <;>
    simp [sendMessage, sendMessageT, hc, hja, hjb, pushesOf,
      List.filterMap_cons, pushCount, List.filter_cons, storedOf, hne,
      Ne.symm hne]

/-- Witness for C1: alice sends to bob while both are online; each of
s1 and s2 receives exactly one push of message 0. -/
theorem direct_both_online_one_push_each_witness :
    (exMsg.sender = some "alice" ∧ exMsg.receiver = some "bob" ∧
     mapGet exDir "alice" = some "s1" ∧ mapGet exDir "bob" = some "s2" ∧
     ("s1" : String) ≠ "s2" ∧ validateMessage exMsg = true) ∧
    (pushCount (sendMessage exDir exDb exMsg).2 "s1" exDb.nextId = 1 ∧
     pushCount (sendMessage exDir exDb exMsg).2 "s2" exDb.nextId = 1) :=
  ⟨⟨by decide, by decide, by decide, by decide, by decide, by decide⟩,
   direct_both_online_one_push_each exDir exDb exMsg "alice" "bob" "s1" "s2"
     (by decide) (by decide) (by decide) (by decide) (by decide) (by decide)⟩

/-- Claim C7: a direct message to an offline receiver produces no push
to anyone but the sender's own handle, is still persisted, and shows up
in a later `getMessages` fetch of the conversation. -/
theorem direct_receiver_offline
    (dir : DirState) (db : Db) (m : MsgDraft) (A B : Identity)
    (hA : m.sender = some A) (hB : m.receiver = some B)
    (hoff : mapGet dir B = none) (hval : validateMessage m = true)
    (hA0 : A ≠ "") (hB0 : B ≠ "") :
    (∀ e ∈ (sendMessage dir db m).2, mapGet dir A = some e.target) ∧
    storedOf db m ∈ (sendMessage dir db m).1.messages ∧
    ∃ l, getMessages (sendMessage dir db m).1 A B = some l ∧
      storedOf db m ∈ l := by
  have hc : createMessage db m
      = some (storedOf db m,
          { db with messages := db.messages ++ [storedOf db m],
                    nextId := db.nextId + 1 }) := by
    simp [createMessage, hval]
  have hjb : jsGet dir m.receiver = none := by simp [jsGet, hB, hoff]
  refine ⟨?_, ?_, ?_⟩
  · intro e he
    cases hsa : mapGet dir A with
    | none =>
        have hja : jsGet dir m.sender = none := by simp [jsGet, hA, hsa]
        simp [sendMessage, sendMessageT, hc, hja, hjb, pushesOf,
          List.filterMap_cons] at he
    | some sa =>
        have hja : jsGet dir m.sender = some sa := by simp [jsGet, hA, hsa]
        simp [sendMessage, sendMessageT, hc, hja, hjb, pushesOf,
          List.filterMap_cons] at he
        rw [he]
  · cases hsa : mapGet dir A with
    | none =>
        have hja : jsGet dir m.sender = none := by simp [jsGet, hA, hsa]
        simp [sendMessage, sendMessageT, hc, hja, hjb]
    | some sa =>
        have hja : jsGet dir m.sender = some sa := by simp [jsGet, hA, hsa]
        simp [sendMessage, sendMessageT, hc, hja, hjb]
  · have hmsgs : (sendMessage dir db m).1.messages
        = db.messages ++ [storedOf db m] := by
      simp [sendMessage, sendMessageT, hc]
    refine ⟨((sendMessage dir db m).1.messages).filter (fun x =>
      (x.sender == A && x.receiver == some B) ||
      (x.sender == B && x.receiver == some A)), ?_, ?_⟩
    · simp [getMessages, hA0, hB0]
    · rw [hmsgs]
      refine List.mem_filter.mpr ⟨List.mem_append_right _ (List.mem_singleton.mpr rfl), ?_⟩
      simp [storedOf, hA, hB]

/-- Witness for C7: alice sends to dave who is not bound; the message
is stored and fetchable, and no push targets anything but s1. -/
theorem direct_receiver_offline_witness :
    (exMsgOffline.sender = some "alice" ∧ exMsgOffline.receiver = some "dave" ∧
     mapGet exDir "dave" = none ∧ validateMessage exMsgOffline = true ∧
     ("alice" : String) ≠ "" ∧ ("dave" : String) ≠ "") ∧
    ((∀ e ∈ (sendMessage exDir exDb exMsgOffline).2,
        mapGet exDir "alice" = some e.target) ∧
     storedOf exDb exMsgOffline ∈ (sendMessage exDir exDb exMsgOffline).1.messages ∧
     ∃ l, getMessages (sendMessage exDir exDb exMsgOffline).1 "alice" "dave" = some l ∧
       storedOf exDb exMsgOffline ∈ l) :=
  ⟨⟨by decide, by decide, by decide, by decide, by decide, by decide⟩,
   direct_receiver_offline exDir exDb exMsgOffline "alice" "dave"
     (by decide) (by decide) (by decide) (by decide) (by decide) (by decide)⟩

/-- Amended claim C4: direct delivery performs its directory lookups of
sender and receiver FIRST, then persists (and re-reads) the message,
and only after successful persistence emits any push: the trace starts
with the two lookups followed by the persistence step, and no later
step is a lookup or a persistence, so every push still happens after
persistence — but the lookups happen before persistence, not after. -/
theorem direct_delivery_step_order (dir : DirState) (db : Db) (m : MsgDraft) :
    ∃ rest, (sendMessageT dir db m).2 =
        Step.lookup m.sender (jsGet dir m.sender) ::
        Step.lookup m.receiver (jsGet dir m.receiver) ::
        Step.persist (validateMessage m) :: rest ∧
      ∀ s ∈ rest, s.isLookup = false ∧ s.isPersist = false := by
  cases hval : validateMessage m with
  | false =>
      have hc : createMessage db m = none := by simp [createMessage, hval]
      refine ⟨[], by simp [sendMessageT, hc], by simp⟩
  | true =>
      have hc : createMessage db m
          = some (storedOf db m,
              { db with messages := db.messages ++ [storedOf db m],
                        nextId := db.nextId + 1 }) := by
        simp [createMessage, hval]
      cases hr : jsGet dir m.receiver with
      | none =>
          cases hs2 : jsGet dir m.sender with
          | none =>
              refine ⟨[Step.reread (storedOf db m).id], ?_, ?_⟩
              · simp [sendMessageT, hc, hr, hs2]
              · intro s hs3
                rcases List.mem_singleton.mp hs3 with rfl
                exact ⟨rfl, rfl⟩
          | some sa =>
              refine ⟨[Step.reread (storedOf db m).id,
                Step.push ⟨sa, "recieveMessage", (storedOf db m).id, none⟩], ?_, ?_⟩
              · simp [sendMessageT, hc, hr, hs2]
              · intro s hs3
                rcases List.mem_cons.mp hs3 with rfl | hs4
                · exact ⟨rfl, rfl⟩
                · rcases List.mem_singleton.mp hs4 with rfl
                  exact ⟨rfl, rfl⟩
      | some sb =>
          cases hs2 : jsGet dir m.sender with
          | none =>
              refine ⟨[Step.reread (storedOf db m).id,
                Step.push ⟨sb, "recieveMessage", (storedOf db m).id, none⟩], ?_, ?_⟩
              · simp [sendMessageT, hc, hr, hs2]
              · intro s hs3
                rcases List.mem_cons.mp hs3 with rfl | hs4
                · exact ⟨rfl, rfl⟩
                · rcases List.mem_singleton.mp hs4 with rfl
                  exact ⟨rfl, rfl⟩
          | some sa =>
              refine ⟨[Step.reread (storedOf db m).id,
                Step.push ⟨sb, "recieveMessage", (storedOf db m).id, none⟩,
                Step.push ⟨sa, "recieveMessage", (storedOf db m).id, none⟩], ?_, ?_⟩
              · simp [sendMessageT, hc, hr, hs2]
              · intro s hs3
                rcases List.mem_cons.mp hs3 with rfl | hs4
                · exact ⟨rfl, rfl⟩
                · rcases List.mem_cons.mp hs4 with rfl | hs5
                  · exact ⟨rfl, rfl⟩
                  · rcases List.mem_singleton.mp hs5 with rfl
                    exact ⟨rfl, rfl⟩

/-- Counterexample to C4 as stated: on a concrete delivery the first
trace step is already a directory lookup while the persistence step
only comes third, so the directory lookup does not happen after
persistence. -/
theorem lookup_precedes_persistence_cex :
    List.findIdx Step.isLookup (sendMessageT exDir exDb exMsg).2 = 0 ∧
    List.findIdx Step.isPersist (sendMessageT exDir exDb exMsg).2 = 2 ∧
    ¬ List.findIdx Step.isPersist (sendMessageT exDir exDb exMsg).2
        < List.findIdx Step.isLookup (sendMessageT exDir exDb exMsg).2 := by
  decide

/-- Amended claim C9: a channel message is always persisted first; its
id is appended to the referenced channel's message list when that
channel exists, but when the referenced channel does not exist the
message record is still persisted while no channel links to it (and no
push is emitted). -/
theorem channel_message_linked_iff_channel_exists
    (dir : DirState) (db : Db) (m : MsgDraft) (cid : String)
    (hch : m.channel = some cid) (hval : validateMessage m = true) :
    (sendMessageOnChannel dir db m).1.messages
      = db.messages ++ [storedOf db m] ∧
    (∀ ch, findChannel db.channels cid = some ch →
        findChannel (sendMessageOnChannel dir db m).1.channels cid
          = some { ch with messages := ch.messages ++ [db.nextId] }) ∧
    (findChannel db.channels cid = none →
        (sendMessageOnChannel dir db m).1.channels = db.channels ∧
        (sendMessageOnChannel dir db m).2 = []) := by
  have hc : createMessage db m
      = some (storedOf db m,
          { db with messages := db.messages ++ [storedOf db m],
                    nextId := db.nextId + 1 }) := by
    simp [createMessage, hval]
  refine ⟨?_, ?_, ?_⟩
  · rcases hf : findChannel (channelAppend db.channels cid db.nextId) cid
        with _ | ch2 <;>
      simp [sendMessageOnChannel, sendMessageOnChannelT, hc, hch, storedOf, hf]
  · intro ch hfind
    have hf := findChannel_channelAppend db.nextId hfind
    simp [sendMessageOnChannel, sendMessageOnChannelT, hc, hch, storedOf, hf]
  · intro hnone
    have hA : channelAppend db.channels cid db.nextId = db.channels :=
      channelAppend_of_none db.nextId hnone
    simp [sendMessageOnChannel, sendMessageOnChannelT, hc, hch, storedOf, hA,
      hnone, pushesOf, List.filterMap_cons]

/-- Witness for the amended C9 at the example channel database. -/
theorem channel_message_linked_witness :
    (exChanMsg.channel = some "c1" ∧ validateMessage exChanMsg = true) ∧
    ((sendMessageOnChannel exDir exDbChan exChanMsg).1.messages
        = exDbChan.messages ++ [storedOf exDbChan exChanMsg] ∧
     (∀ ch, findChannel exDbChan.channels "c1" = some ch →
        findChannel (sendMessageOnChannel exDir exDbChan exChanMsg).1.channels "c1"
          = some { ch with messages := ch.messages ++ [exDbChan.nextId] }) ∧
     (findChannel exDbChan.channels "c1" = none →
        (sendMessageOnChannel exDir exDbChan exChanMsg).1.channels
          = exDbChan.channels ∧
        (sendMessageOnChannel exDir exDbChan exChanMsg).2 = [])) :=
  ⟨⟨by decide, by decide⟩,
   channel_message_linked_iff_channel_exists exDir exDbChan exChanMsg "c1"
     (by decide) (by decide)⟩

/-- Counterexample to C9 as stated: sending a channel message naming a
channel id that exists in no channel document persists the message
record while no channel's message-reference list contains its id — an
orphaned stored record with channel scope. -/
theorem channel_scope_orphan_cex :
    (sendMessageOnChannel exDir exDb exChanMsg).1.messages ≠ [] ∧
    (sendMessageOnChannel exDir exDb exChanMsg).1.channels = [] ∧
    ((sendMessageOnChannel exDir exDb exChanMsg).1.channels.any
      (fun c => c.messages.contains 0)) = false ∧
    (sendMessageOnChannel exDir exDb exChanMsg).2 = [] := by
  decide

/-- Claim C2: a channel message to an existing channel is persisted
exactly once, appended exactly once to that channel's message list,
and pushed once per set membership to the live handle of each identity
in the member set and then the admin set — an identity present in both
sets receives the push twice. -/
theorem channel_message_fanout
    (dir : DirState) (db : Db) (m : MsgDraft) (cid : String) (ch : ChannelDoc)
    (u : Identity) (s : SocketId)
    (hch : m.channel = some cid) (hval : validateMessage m = true)
    (hfind : findChannel db.channels cid = some ch)
    (hndm : ch.members.Nodup) (hnda : ch.admin.Nodup)
    (hs : mapGet dir u = some s) (hvals : (dir.map Prod.snd).Nodup) :
    (sendMessageOnChannel dir db m).1.messages
      = db.messages ++ [storedOf db m] ∧
    findChannel (sendMessageOnChannel dir db m).1.channels cid
      = some { ch with messages := ch.messages ++ [db.nextId] } ∧
    pushCount (sendMessageOnChannel dir db m).2 s db.nextId
      = (if u ∈ ch.members then 1 else 0) + (if u ∈ ch.admin then 1 else 0) := by
  have huniq : ∀ v, mapGet dir v = some s → v = u :=
    fun v hv => nodup_snd_inj hvals (mapGet_mem hv) (mapGet_mem hs)
  have hc : createMessage db m
      = some (storedOf db m,
          { db with messages := db.messages ++ [storedOf db m],
                    nextId := db.nextId + 1 }) := by
    simp [createMessage, hval]
  have hf := findChannel_channelAppend db.nextId hfind
  have hm := pushCount_fanout dir ch.members u s db.nextId
    "recieveChannelMessage" (some ch.id) hndm hs huniq
  have ha := pushCount_fanout dir ch.admin u s db.nextId
    "recieveChannelMessage" (some ch.id) hnda hs huniq
  refine ⟨?_, ?_, ?_⟩
  · simp [sendMessageOnChannel, sendMessageOnChannelT, hc, hch, storedOf, hf]
  · simp [sendMessageOnChannel, sendMessageOnChannelT, hc, hch, storedOf, hf]
  · have hpre : pushesOf [Step.persist true, Step.reread db.nextId,
        Step.chanUpdate (some cid), Step.chanFetch (some cid) true] = [] := rfl
    simp only [sendMessageOnChannel, sendMessageOnChannelT, hc, hch,
      Option.some_bind, hf, storedOf]
    rw [pushesOf_append, pushesOf_append, pushesOf_map_push, pushesOf_map_push,
      hpre, List.nil_append, pushCount_append, hm, ha]

/-- Witness for C2: bob is both member and admin of the example
channel and online on s2, so s2 receives the push twice (once per set
membership). -/
theorem channel_message_fanout_witness :
    (exChanMsg.channel = some "c1" ∧ validateMessage exChanMsg = true ∧
     findChannel exDbChan.channels "c1" = some exChan ∧
     exChan.members.Nodup ∧ exChan.admin.Nodup ∧
     mapGet exDir "bob" = some "s2" ∧ (exDir.map Prod.snd).Nodup) ∧
    ((sendMessageOnChannel exDir exDbChan exChanMsg).1.messages
        = exDbChan.messages ++ [storedOf exDbChan exChanMsg] ∧
     findChannel (sendMessageOnChannel exDir exDbChan exChanMsg).1.channels "c1"
        = some { exChan with messages := exChan.messages ++ [exDbChan.nextId] } ∧
     pushCount (sendMessageOnChannel exDir exDbChan exChanMsg).2 "s2" exDbChan.nextId
        = (if "bob" ∈ exChan.members then 1 else 0)
          + (if "bob" ∈ exChan.admin then 1 else 0)) :=
  ⟨⟨by decide, by decide, by decide, by decide, by decide, by decide, by decide⟩,
   channel_message_fanout exDir exDbChan exChanMsg "c1" exChan "bob" "s2"
     (by decide) (by decide) (by decide) (by decide) (by decide) (by decide)
     (by decide)⟩

end TalkNest
